import Mathlib

/-!
Verification of the Scout Engine (scrapers, analyzer, aggregator).

Shallow embedding of the three Python modules:
  - scout_engine/analyzers/vibe_analyzer.py  (VibeAnalyzer)
  - scout_engine/scrapers/instagram_scraper.py  (InstagramLocationScraper)
  - scout_engine/scout.py  (ScoutEngine)

Machine-level conventions of the embedding:
  - Python int is modelled as Lean Int, Python float as Rat (image
    analysis confidences and averages are small decimal values where
    exact rational arithmetic coincides with the double computation).
  - Python exceptions are modelled by an explicit PyExc value; code in a
    try block is modelled in the Except monad; code that never raises is
    a total function.
  - Values decoded from the external classifier reply (json.loads) are
    modelled by the JsonVal type below; dynamic operations such as
    int(v), float(v) and v[:4] are modelled as Except-valued functions
    that mirror which CPython conversions succeed and which exception
    class a failing conversion raises.
-/

namespace ScoutEngine

/-! ## Python dynamic-value model -/

/-- A value decoded from a JSON document (the classifier reply).
Arrays may nest arbitrarily. -/
inductive JsonVal where
  | jnum (q : ℚ)
  | jstr (s : String)
  | jbool (b : Bool)
  | jnull
  | jarr (xs : List JsonVal)

/-- Python exception classes relevant to the analyzer code paths. -/
inductive PyExc where
  | jsonDecodeError (msg : String)
  | keyError (msg : String)
  | typeError (msg : String)
  | valueError (msg : String)
  | attributeError (msg : String)
deriving DecidableEq

/-- The str(e) rendering of an exception: its message. -/
def PyExc.msg : PyExc → String
  | .jsonDecodeError m => m
  | .keyError m => m
  | .typeError m => m
  | .valueError m => m
  | .attributeError m => m

/-- The exception classes caught by the except clause of
VibeAnalyzer dot underscore parse response:
except (json.JSONDecodeError, KeyError, TypeError). -/
def caughtByParse : PyExc → Bool
  | .jsonDecodeError _ => true
  | .keyError _ => true
  | .typeError _ => true
  | _ => false

/-- Truncation toward zero, the semantics of Python int() on a number. -/
def truncRat (q : ℚ) : ℤ :=
  if 0 ≤ q then ⌊q⌋ else -⌊-q⌋

/-- Digit run to natural number. -/
def digitsToNat (ds : List Char) : ℕ :=
  ds.foldl (fun n c => 10 * n + (c.toNat - 48)) 0

/-- Leading and trailing whitespace stripped, as Python numeric
conversions accept surrounded numerals. -/
def trimWS (ds : List Char) : List Char :=
  ((ds.dropWhile Char.isWhitespace).reverse.dropWhile Char.isWhitespace).reverse

/-- Model of CPython int(s) on a string: optional sign followed by a
nonempty digit run (surrounding whitespace stripped); anything else
raises ValueError. -/
def parsePyInt (s : String) : Option ℤ :=
  match trimWS s.toList with
  | '-' :: ds => if ds ≠ [] ∧ ds.all Char.isDigit then some (-(digitsToNat ds : ℤ)) else none
  | '+' :: ds => if ds ≠ [] ∧ ds.all Char.isDigit then some (digitsToNat ds : ℤ) else none
  | ds => if ds ≠ [] ∧ ds.all Char.isDigit then some (digitsToNat ds : ℤ) else none

/-- Model of CPython float(s) on a string: optional sign, digits with at
most one decimal point and at least one digit; anything else raises
ValueError. -/
def parsePyFloat (s : String) : Option ℚ :=
  let core : List Char → Option ℚ := fun ds =>
    match ds.splitOn '.' with
    | [ip] => if ip ≠ [] ∧ ip.all Char.isDigit then some (digitsToNat ip : ℚ) else none
    | [ip, fp] =>
        if (ip ≠ [] ∨ fp ≠ []) ∧ ip.all Char.isDigit ∧ fp.all Char.isDigit then
          some ((digitsToNat ip : ℚ) + (digitsToNat fp : ℚ) / ((10 : ℚ) ^ fp.length))
        else none
    | _ => none
  match trimWS s.toList with
  | '-' :: ds => (core ds).map (fun q => -q)
  | '+' :: ds => core ds
  | ds => core ds

/-- Python int(v) on a decoded JSON value. Numbers truncate toward
zero, booleans coerce, numeric strings parse, other strings raise
ValueError, and non-scalar values raise TypeError. -/
def pyInt : JsonVal → Except PyExc ℤ
  | .jnum q => .ok (truncRat q)
  | .jbool b => .ok (if b then 1 else 0)
  | .jstr s =>
      match parsePyInt s with
      | some n => .ok n
      | none => .error (.valueError ("invalid literal for int with base 10: " ++ s))
  | .jnull => .error (.typeError "int argument must be a string or a number, not NoneType")
  | .jarr _ => .error (.typeError "int argument must be a string or a number, not list")

/-- Python float(v) on a decoded JSON value. -/
def pyFloat : JsonVal → Except PyExc ℚ
  | .jnum q => .ok q
  | .jbool b => .ok (if b then 1 else 0)
  | .jstr s =>
      match parsePyFloat s with
      | some q => .ok q
      | none => .error (.valueError ("could not convert string to float: " ++ s))
  | .jnull => .error (.typeError "float argument must be a string or a number, not NoneType")
  | .jarr _ => .error (.typeError "float argument must be a string or a number, not list")

/-- Python v[:4]: defined on sequences (lists keep their first four
elements, strings their first four characters); other values raise
TypeError. -/
def pySlice4 : JsonVal → Except PyExc JsonVal
  | .jarr xs => .ok (.jarr (xs.take 4))
  | .jstr s => .ok (.jstr (String.mk (s.toList.take 4)))
  | .jnum _ => .error (.typeError "value is not subscriptable")
  | .jbool _ => .error (.typeError "value is not subscriptable")
  | .jnull => .error (.typeError "value is not subscriptable")

/-- The length of a sliceable value (Python len). -/
def pyLen : JsonVal → Option ℕ
  | .jarr xs => some xs.length
  | .jstr s => some s.toList.length
  | _ => none

/-- Lookup of a key in a decoded JSON object (keys of a decoded dict
are distinct, so first match suffices). -/
def pyLookup (fields : List (String × JsonVal)) (k : String) : Option JsonVal :=
  (fields.find? (fun p => p.1 = k)).map (fun p => p.2)

/-- Python data.get(k, default). -/
def pyGet (fields : List (String × JsonVal)) (k : String) (dflt : JsonVal) : JsonVal :=
  match pyLookup fields k with
  | some v => v
  | none => dflt

/-! ## Vibe Analyzer (vibe_analyzer.py)

`VibeAnalysis` keeps the runtime (dynamically typed) shapes of the
fields the Python code actually stores: vibe underscore tags and
description receive whatever the slice and lookup produced. -/

/-- The dataclass VibeAnalysis as built at runtime by the analyzer. -/
structure VibeAnalysis where
  image_url : String
  energy_level : ℤ
  crowd_level : ℤ
  vibe_tags : JsonVal
  description : JsonVal
  confidence : ℚ
  success : Bool
  error : Option String := none

/-- The degraded record returned by the except clause of
underscore parse response. -/
def parseDegraded (url : String) (err : String) : VibeAnalysis :=
  { image_url := url, energy_level := 5, crowd_level := 5
    vibe_tags := .jarr [.jstr "Unknown"], description := .jstr "Failed to parse analysis"
    confidence := 0, success := false, error := some err }

/-- The degraded record returned when the image fetch raises
httpx.HTTPError. -/
def httpDegraded (url : String) (err : String) : VibeAnalysis :=
  { image_url := url, energy_level := 5, crowd_level := 5
    vibe_tags := .jarr [.jstr "Unknown"], description := .jstr "Failed to fetch image"
    confidence := 0, success := false, error := some ("HTTP error: " ++ err) }

/-- The degraded record returned by the final generic except clause of
analyze image; the error field is str(e) verbatim. -/
def genericDegraded (url : String) (err : String) : VibeAnalysis :=
  { image_url := url, energy_level := 5, crowd_level := 5
    vibe_tags := .jarr [.jstr "Unknown"], description := .jstr "Analysis failed"
    confidence := 0, success := false, error := some err }

/-- The body of the try block of underscore parse response after
json.loads succeeded with an object: build the VibeAnalysis field by
field, in Python evaluation order, propagating any exception raised by
a conversion. Mirrors lines 110 to 118 of vibe_analyzer.py. -/
def buildAnalysis (fields : List (String × JsonVal)) (url : String) :
    Except PyExc VibeAnalysis :=
  match pyInt (pyGet fields "energy_level" (.jnum 5)) with
  | .error ex => .error ex
  | .ok e =>
      match pyInt (pyGet fields "crowd_level" (.jnum 5)) with
      | .error ex => .error ex
      | .ok c =>
          match pySlice4 (pyGet fields "vibe_tags" (.jarr [])) with
          | .error ex => .error ex
          | .ok tags =>
              match pyFloat (pyGet fields "confidence" (.jnum (1 / 2))) with
              | .error ex => .error ex
              | .ok conf =>
                  .ok { image_url := url
                        energy_level := max 1 (min 10 e)
                        crowd_level := max 1 (min 10 c)
                        vibe_tags := tags
                        description := pyGet fields "description" (.jstr "Unable to analyze")
                        confidence := max 0 (min 1 conf)
                        success := true }

/-- The classifier reply after the code-fence stripping of lines 101 to
106 and the json.loads call: either the cleaned text is not valid JSON
(JSONDecodeError), or it decodes to a non-dict value, or it decodes to
a dict with the given entries. -/
inductive PyReply where
  | malformed (msg : String)
  | nonObject (v : JsonVal)
  | object (fields : List (String × JsonVal))

/-- VibeAnalyzer underscore parse response. JSONDecodeError, KeyError
and TypeError are caught and converted to the degraded record; any
other exception (ValueError from a failed numeric conversion,
AttributeError from calling .get on a non-dict) escapes. -/
def parse_response (r : PyReply) (url : String) : Except PyExc VibeAnalysis :=
  match r with
  | .malformed m => .ok (parseDegraded url ("Parse error: " ++ m))
  | .nonObject _ => .error (.attributeError "object has no attribute get")
  | .object fields =>
      match buildAnalysis fields url with
      | .ok a => .ok a
      | .error e =>
          if caughtByParse e then .ok (parseDegraded url ("Parse error: " ++ e.msg))
          else .error e

/-- The outcome of the effectful part of analyze image for one call:
either the image fetch raised httpx.HTTPError, or some other exception
was raised before a reply was obtained (transport failure, classifier
API failure), or the classifier produced a reply. -/
inductive AnalyzeEnv where
  | raiseHttp (msg : String)
  | raiseOther (msg : String)
  | reply (r : PyReply)

/-- VibeAnalyzer analyze image: total over every environment outcome,
mirroring the try and except clauses of lines 142 to 196. -/
def analyze_image (url : String) (env : AnalyzeEnv) : VibeAnalysis :=
  match env with
  | .raiseHttp m => httpDegraded url m
  | .raiseOther m => genericDegraded url m
  | .reply r =>
      match parse_response r url with
      | .ok a => a
      | .error e => genericDegraded url e.msg

/-! ## Vibe Aggregator (scout.py, ScoutEngine underscore aggregate vibes)

The aggregator reads the fields energy level, crowd level, vibe tags,
confidence and success of each analysis. It is modelled over records
carrying the types the dataclass declares (int, int, list of str,
float, bool), the shapes the scorer produces on every path. -/

/-- A per-image score record as consumed by the aggregator. -/
structure VibeScore where
  energy_level : ℤ
  crowd_level : ℤ
  vibe_tags : List String
  confidence : ℚ
  success : Bool
deriving DecidableEq

/-- The aggregated summary dict built by underscore aggregate vibes. -/
structure VibeSummary where
  avg_energy : ℚ
  avg_crowd : ℚ
  top_vibe_tags : List String
  status : String
  sample_size : ℕ
deriving DecidableEq

/-- Line 155: successful = the scores with success and confidence
strictly above 0.3. -/
def successful (analyses : List VibeScore) : List VibeScore :=
  analyses.filter (fun a => a.success && decide ((3 : ℚ) / 10 < a.confidence))

/-- The insufficient-data summary of lines 158 to 164. -/
def insufficientSummary : VibeSummary :=
  { avg_energy := 5, avg_crowd := 5, top_vibe_tags := ["Unknown"]
    status := "insufficient_data", sample_size := 0 }

/-- Line 167: arithmetic mean of the energy levels. -/
def avgEnergyOf (succ : List VibeScore) : ℚ :=
  ((succ.map (fun a => a.energy_level)).sum : ℚ) / (succ.length : ℚ)

/-- Line 168: arithmetic mean of the crowd levels. -/
def avgCrowdOf (succ : List VibeScore) : ℚ :=
  ((succ.map (fun a => a.crowd_level)).sum : ℚ) / (succ.length : ℚ)

/-- Lines 171 to 174: insertion-ordered tag tally. A Python dict keyed
by strings is an insertion-ordered association list with distinct keys;
tag underscore counts.get(tag, 0) + 1 either bumps the existing entry
or appends a fresh one. -/
def bumpTag (acc : List (String × ℕ)) (t : String) : List (String × ℕ) :=
  if acc.any (fun p => p.1 = t) then
    acc.map (fun p => if p.1 = t then (p.1, p.2 + 1) else p)
  else
    acc ++ [(t, 1)]

/-- The tally over one tag list after another, scores in order. -/
def tallyTags (succ : List VibeScore) : List (String × ℕ) :=
  succ.foldl (fun acc a => a.vibe_tags.foldl bumpTag acc) []

/-- tag underscore counts[t] with 0 for an absent key (used only to
model the sort key lookup; on the keys being sorted the key is always
present). -/
def countIn (tc : List (String × ℕ)) (t : String) : ℕ :=
  match (tc.find? (fun p => p.1 = t)).map (fun p => p.2) with
  | some n => n
  | none => 0

/-- Line 177: sorted(tag counts keys, key = count, reverse) take 4.
CPython sorted is stable and reverse negates only the comparison, so a
descending stable sort is insertion sort with the relation
(count of a is at least count of b). -/
def topTagsOf (succ : List VibeScore) : List String :=
  let tag_counts := tallyTags succ
  (List.insertionSort (fun a b => countIn tag_counts b ≤ countIn tag_counts a)
    (tag_counts.map (fun p => p.1))).take 4

/-- Lines 180 to 185: the status conditional, evaluated on the
unrounded means. -/
def statusOf (avg_energy avg_crowd : ℚ) : String :=
  if 7 ≤ avg_energy ∧ 7 ≤ avg_crowd then "LIVE"
  else if 5 ≤ avg_energy ∨ 5 ≤ avg_crowd then "warming_up"
  else "dead"

/-- Python round(x, 1): scale by 10, round half to even, scale back.
CPython rounds a float to the nearest representable value of the
requested precision with ties to even; on the exact rationals of this
model that is round half to even of 10 x. -/
def pyRound1 (q : ℚ) : ℚ :=
  let t : ℚ := 10 * q
  let f : ℤ := ⌊t⌋
  let r : ℤ :=
    if t - (f : ℚ) < 1 / 2 then f
    else if (1 : ℚ) / 2 < t - (f : ℚ) then f + 1
    else if f % 2 = 0 then f else f + 1
  (r : ℚ) / 10

/-- ScoutEngine underscore aggregate vibes (lines 153 to 193). -/
def aggregate_vibes (analyses : List VibeScore) : VibeSummary :=
  let succ := successful analyses
  if succ.isEmpty then insufficientSummary
  else
    let avg_energy := avgEnergyOf succ
    let avg_crowd := avgCrowdOf succ
    let top_tags := topTagsOf succ
    { avg_energy := pyRound1 avg_energy
      avg_crowd := pyRound1 avg_crowd
      top_vibe_tags := if top_tags.isEmpty then ["Unknown"] else top_tags
      status := statusOf avg_energy avg_crowd
      sample_size := succ.length }

/-! ## Instagram Location Scraper (instagram_scraper.py) -/

/-- The dataclass MediaItem. -/
structure MediaItem where
  url : String
  thumbnail_url : String
  media_type : String
  shortcode : String
  scraped_at : String
deriving DecidableEq

/-- The dataclass ScrapeResult. -/
structure ScrapeResult where
  location_url : String
  location_name : Option String
  media_items : List MediaItem
  scraped_at : String
  success : Bool
  error : Option String := none
deriving DecidableEq

/-- A shortcode character of the pattern class A to Z, a to z, 0 to 9,
underscore, hyphen. -/
def scChar (c : Char) : Bool :=
  c.isAlpha || c.isDigit || c = '_' || c = '-'

/-- re.search of slash p slash followed by one or more shortcode
characters, returning the captured group: scan left to right for a
match position, take the maximal run. -/
def extractShortcode : List Char → Option String
  | [] => none
  | c :: cs =>
      match c, cs with
      | '/', 'p' :: '/' :: rest =>
          let run := rest.takeWhile scChar
          if run.isEmpty then extractShortcode cs else some (String.mk run)
      | _, _ => extractShortcode cs

/-- Where, if anywhere, the per-link try body raises (each await on the
browser can fail): while reading the href, while querying the
thumbnail, or while querying the video indicator. -/
inductive LinkFail where
  | atHref
  | atImg
  | atVideo
deriving DecidableEq

/-- One candidate anchor element matched by the post-link selector.
imgSrc is none when no img child exists, some none when the img has no
src attribute. -/
structure CandLink where
  href : Option String
  imgSrc : Option (Option String)
  isVideo : Bool
  failAt : Option LinkFail := none
deriving DecidableEq

/-- The timestamp written into extracted items (datetime.utcnow is an
external effect; the extraction logic treats it as an opaque string). -/
def nowStamp : String := "now"

/-- The shortcode a candidate link contributes: none when reading the
href raises, when the href attribute is absent, or when the pattern
does not match (lines 123 to 132). -/
def candidateShortcode (l : CandLink) : Option String :=
  if l.failAt = some .atHref then none
  else
    match l.href with
    | none => none
    | some h => extractShortcode h.toList

/-- The body of the for loop of lines 122 to 161 for one link: given
the shortcodes already seen, produce the updated seen set and the item
appended, if any. A raised exception is caught by the except clause and
the loop continues; note that a failure after the shortcode was added
to seen leaves it in seen. -/
def processLink (seen : List String) (l : CandLink) : List String × Option MediaItem :=
  match candidateShortcode l with
  | none => (seen, none)
  | some sc =>
      if sc ∈ seen then (seen, none)
      else
        let seen' := sc :: seen
        if l.failAt = some .atImg then (seen', none)
        else
          let thumbnail_url :=
            match l.imgSrc with
            | none => ""
            | some none => ""
            | some (some s) => s
          if l.failAt = some .atVideo then (seen', none)
          else
            (seen',
              some { url := "https://www.instagram.com/p/" ++ sc ++ "/"
                     thumbnail_url := thumbnail_url
                     media_type := if l.isVideo then "video" else "image"
                     shortcode := sc
                     scraped_at := nowStamp })

/-- The loop over the candidate links with the early break of lines 119
and 120: stop as soon as max items have been collected. -/
def extractLoop (max_items : ℕ) : List CandLink → List String → List MediaItem → List MediaItem
  | [], _, acc => acc
  | l :: ls, seen, acc =>
      if max_items ≤ acc.length then acc
      else
        let step := processLink seen l
        extractLoop max_items ls step.1 (acc ++ step.2.toList)

/-- InstagramLocationScraper underscore extract media from page
(lines 105 to 163): scan the first 2 times max items candidate links. -/
def extract_media_from_page (post_links : List CandLink) (max_items : ℕ) : List MediaItem :=
  extractLoop max_items (post_links.take (max_items * 2)) [] []

/-! ### Session lifecycle of scrape location (lines 191 to 259)

For the resource claim only the open and close events of the browser
session matter; one attempt is summarized by its outcome. -/

/-- Browser session lifecycle events. -/
inductive SessionEvent where
  | opened
  | closed
deriving DecidableEq

/-- Outcome of one iteration of the retry loop. -/
inductive AttemptOutcome where
  /-- setup browser itself raised before a session existed. -/
  | setupFail (msg : String)
  /-- page.goto returned HTTP 429: the code sleeps and continues. -/
  | rateLimited
  /-- a non-200 status, a login wall, or any exception raised after the
  session was created: handled by the except clause. -/
  | failAfterOpen (msg : String)
  /-- navigation and extraction succeeded: close, stop, return. -/
  | success
deriving DecidableEq

/-- The session events one attempt emits, read off the control flow of
scrape location: the 429 branch (lines 204 to 207) continues to the
next attempt without a close call; the success path closes before
returning; the except clause closes before retrying or returning. -/
def attemptEvents : AttemptOutcome → List SessionEvent
  | .setupFail _ => []
  | .rateLimited => [.opened]
  | .failAfterOpen _ => [.opened, .closed]
  | .success => [.opened, .closed]

/-- The event trace of a whole scrape location call, given the outcome
of each attempted iteration (the caller supplies at most max retries
outcomes; a success ends the loop). -/
def scrapeEvents : List AttemptOutcome → List SessionEvent
  | [] => []
  | .success :: _ => attemptEvents .success
  | o :: rest => attemptEvents o ++ scrapeEvents rest

/-- A trace is properly bracketed when no session is opened while
another is open and no session is left open at the end. -/
def balancedFrom : Bool → List SessionEvent → Bool
  | false, [] => true
  | true, [] => false
  | false, .opened :: r => balancedFrom true r
  | false, .closed :: _ => false
  | true, .opened :: _ => false
  | true, .closed :: r => balancedFrom false r

/-- Every acquired session is released before the attempt ends. -/
def sessionsProperlyReleased (evs : List SessionEvent) : Bool :=
  balancedFrom false evs

/-! ## Pipeline Orchestrator (scout.py, ScoutEngine.scout location)

The three report dict shapes are unified into one record; a field a
given shape does not carry is none, the empty list or zero. The batch
call (analyzer.analyze batch) dispatches one scoring call per thumbnail
URL and asyncio.gather returns the results in input order, so it is
modelled as a map of a per-URL scoring function. -/

/-- The report dict assembled by scout location. -/
structure Report where
  success : Bool
  error : Option String
  location_url : String
  location_name : Option String
  post_count : ℕ
  posts : List MediaItem
  analyses : List VibeScore
  vibe_summary : Option VibeSummary
  message : Option String
  scraped_at : String
deriving DecidableEq

/-- ScoutEngine.scout location (lines 45 to 151), parameterized by the
scrape result and by the per-thumbnail scoring function. -/
def scout_location (scrape_result : ScrapeResult) (analyze_images : Bool)
    (scoreOf : String → VibeScore) : Report :=
  if !scrape_result.success then
    { success := false, error := scrape_result.error
      location_url := scrape_result.location_url, location_name := none
      post_count := 0, posts := [], analyses := [], vibe_summary := none
      message := none, scraped_at := scrape_result.scraped_at }
  else if scrape_result.media_items.isEmpty then
    { success := true, error := none
      location_url := scrape_result.location_url
      location_name := scrape_result.location_name
      post_count := 0, posts := [], analyses := [], vibe_summary := none
      message := some "No posts found at this location"
      scraped_at := scrape_result.scraped_at }
  else
    let thumbnail_urls :=
      (scrape_result.media_items.filter (fun i => i.thumbnail_url ≠ "")).map
        (fun i => i.thumbnail_url)
    let analyses :=
      if analyze_images && !thumbnail_urls.isEmpty then thumbnail_urls.map scoreOf
      else []
    let vibe_summary :=
      if analyses.isEmpty then none else some (aggregate_vibes analyses)
    { success := true, error := none
      location_url := scrape_result.location_url
      location_name := scrape_result.location_name
      post_count := scrape_result.media_items.length
      posts := scrape_result.media_items
      analyses := analyses
      vibe_summary := vibe_summary
      message := none
      scraped_at := scrape_result.scraped_at }

/-! ## Spec-side definitions

These follow the wording of the specification, for the refinement
claims that compare the source translation against the described
behaviour. -/

/-- All tags of the contributing scores, flattened in sequence order. -/
def allTags (succ : List VibeScore) : List String :=
  succ.flatMap (fun a => a.vibe_tags)

/-- The distinct elements of a list in first-seen order. -/
def firstKept : List String → List String
  | [] => []
  | t :: ts => t :: (firstKept ts).filter (fun s => s ≠ t)

/-- Position of the first occurrence of t in ts (length of ts when
absent). -/
def firstIdx : List String → String → ℕ
  | [], _ => 0
  | s :: ts, t => if s = t then 0 else firstIdx ts t + 1

/-- Modelled from the spec: the tie-break order on tags, namely higher
frequency first and, at equal frequency, the tag first seen in the
contributing sequence first. -/
def specTagLE (ts : List String) (a b : String) : Prop :=
  ts.count b < ts.count a ∨ (ts.count a = ts.count b ∧ firstIdx ts a ≤ firstIdx ts b)

instance (ts : List String) : DecidableRel (specTagLE ts) := fun _ _ => by
  unfold specTagLE; infer_instance

/-- Modelled from the spec: select up to the four highest-frequency
tags across the contributing scores, breaking frequency ties by
first-seen order; default to Unknown when no tags exist. -/
def specTopVibeTags (succ : List VibeScore) : List String :=
  let ts := allTags succ
  let sorted := List.insertionSort (specTagLE ts) (firstKept ts)
  if sorted.take 4 = [] then ["Unknown"] else sorted.take 4

/-- The tag tally as a fold over the flattened tag sequence, used to
relate the per-score double fold to the flattened one. -/
def tallyList (ts : List String) : List (String × ℕ) :=
  ts.foldl bumpTag []

/-- Helper building a score record for concrete examples. -/
def mkScore (e c : ℤ) (tags : List String) (conf : ℚ) (succ : Bool) : VibeScore :=
  { energy_level := e, crowd_level := c, vibe_tags := tags, confidence := conf, success := succ }

/-- Twenty-five contributing scores whose exact mean energy is 6.96 and
exact mean crowd 7.2. -/
def c10scores : List VibeScore :=
  List.replicate 20 (mkScore 7 7 [] 1 true) ++ List.replicate 4 (mkScore 7 8 [] 1 true) ++
    [mkScore 6 8 [] 1 true]

/-! ## Helper lemmas -/

/-- The non-degenerate branch of the aggregator, spelled out. -/
theorem aggregate_vibes_of_ne_nil {l : List VibeScore} (h : successful l ≠ []) :
    aggregate_vibes l =
      { avg_energy := pyRound1 (avgEnergyOf (successful l))
        avg_crowd := pyRound1 (avgCrowdOf (successful l))
        top_vibe_tags :=
          if (topTagsOf (successful l)).isEmpty then ["Unknown"] else topTagsOf (successful l)
        status := statusOf (avgEnergyOf (successful l)) (avgCrowdOf (successful l))
        sample_size := (successful l).length } := by
  rw [aggregate_vibes]
  simp [List.isEmpty_eq_false.mpr h]

/-! ## Claim theorems -/

/-- Claim C1: for every non-empty list of contributing scores, the
status is LIVE exactly when both unrounded means are at least 7, else
warming up exactly when either mean is at least 5, else dead,
evaluated in that order. -/
theorem claim1_status_classification (l : List VibeScore) (h : successful l ≠ []) :
    ((aggregate_vibes l).status = "LIVE" ↔
        (7 ≤ avgEnergyOf (successful l) ∧ 7 ≤ avgCrowdOf (successful l))) ∧
    ((aggregate_vibes l).status = "warming_up" ↔
        (¬(7 ≤ avgEnergyOf (successful l) ∧ 7 ≤ avgCrowdOf (successful l)) ∧
          (5 ≤ avgEnergyOf (successful l) ∨ 5 ≤ avgCrowdOf (successful l)))) ∧
    ((aggregate_vibes l).status = "dead" ↔
        (¬(7 ≤ avgEnergyOf (successful l) ∧ 7 ≤ avgCrowdOf (successful l)) ∧
          ¬(5 ≤ avgEnergyOf (successful l) ∨ 5 ≤ avgCrowdOf (successful l)))) := by
  rw [aggregate_vibes_of_ne_nil h]
  unfold statusOf
  by_cases h1 : 7 ≤ avgEnergyOf (successful l) ∧ 7 ≤ avgCrowdOf (successful l) <;>
    by_cases h2 : 5 ≤ avgEnergyOf (successful l) ∨ 5 ≤ avgCrowdOf (successful l) <;>
      simp [h1, h2]

/-- Witness for C1 at the three example mean pairs of the claim:
means (8.0, 7.5) give LIVE, (6.0, 3.0) give warming up, (3.0, 2.0)
give dead. -/
theorem claim1_witness :
    (aggregate_vibes [mkScore 8 7 [] 1 true, mkScore 8 8 [] 1 true]).status = "LIVE" ∧
    (aggregate_vibes [mkScore 6 3 [] 1 true]).status = "warming_up" ∧
    (aggregate_vibes [mkScore 3 2 [] 1 true]).status = "dead" := by
  refine ⟨?_, ?_, ?_⟩
  · exact (claim1_status_classification _ (by simp [successful, mkScore] <;> norm_num)).1.mpr
      (by simp [successful, mkScore, avgEnergyOf, avgCrowdOf] <;> norm_num)
  · exact (claim1_status_classification _ (by simp [successful, mkScore] <;> norm_num)).2.1.mpr
      (by simp [successful, mkScore, avgEnergyOf, avgCrowdOf] <;> norm_num)
  · exact (claim1_status_classification _ (by simp [successful, mkScore] <;> norm_num)).2.2.mpr
      (by simp [successful, mkScore, avgEnergyOf, avgCrowdOf] <;> norm_num)

/-- Claim C4 (code bug): the 429 rate-limit branch of scrape location
continues to the next attempt without releasing the browser session, so
a trace whose first attempt is rate limited opens a second session
while the first is still open; every other exit path does release the
session before the attempt ends. -/
theorem claim4_rate_limit_leaks_session :
    sessionsProperlyReleased (scrapeEvents [.rateLimited, .success]) = false ∧
    sessionsProperlyReleased (scrapeEvents [.rateLimited]) = false ∧
    sessionsProperlyReleased (scrapeEvents [.success]) = true ∧
    sessionsProperlyReleased (scrapeEvents [.failAfterOpen "HTTP 500", .success]) = true ∧
    sessionsProperlyReleased (scrapeEvents [.setupFail "launch failed", .failAfterOpen "timeout"])
      = true := by
  decide

/-- Claim C5: the aggregator returns the insufficient-data summary
exactly when no score has success and confidence strictly above 0.3,
and a score at confidence exactly 0.3 never contributes. -/
theorem claim5_insufficient_data (l : List VibeScore) :
    (aggregate_vibes l = insufficientSummary ↔ successful l = []) ∧
    ∀ a ∈ l, a.confidence = 3 / 10 → a ∉ successful l := by
  constructor
  · constructor
    · intro he
      by_contra hne
      have h2 := aggregate_vibes_of_ne_nil hne
      have h3 := congrArg VibeSummary.sample_size (h2.symm.trans he)
      simp [insufficientSummary] at h3
      exact hne h3
    · intro he
      rw [aggregate_vibes, he]
      simp
  · intro a _ hconf hmem
    unfold successful at hmem
    have h4 := (List.mem_filter.mp hmem).2
    rw [hconf] at h4
    simp at h4

/-- Witness for C5: the empty list, a list of only failed or
low-confidence scores, and the exact 0.3 boundary. -/
theorem claim5_witness :
    aggregate_vibes [] = insufficientSummary ∧
    aggregate_vibes [mkScore 9 9 [] (3 / 10) true, mkScore 9 9 ["Hype"] 1 false] =
      insufficientSummary ∧
    mkScore 9 9 [] (3 / 10) true ∉ successful [mkScore 9 9 [] (3 / 10) true] := by
  refine ⟨(claim5_insufficient_data []).1.mpr rfl,
    (claim5_insufficient_data _).1.mpr (by simp [successful, mkScore] <;> norm_num),
    (claim5_insufficient_data _).2 _ (by simp) rfl⟩

/-- Claim C10: the status is classified on the exact means while the
reported averages are rounded afterwards: on twenty-five contributing
scores with exact mean energy 6.96 and mean crowd 7.2, the report shows
average energy 7.0 and average crowd at least 7, yet the status is
warming up because the exact mean energy is below 7. -/
theorem claim10_round_after_classify :
    (aggregate_vibes c10scores).avg_energy = 7 ∧
    7 ≤ (aggregate_vibes c10scores).avg_crowd ∧
    (aggregate_vibes c10scores).status = "warming_up" ∧
    avgEnergyOf (successful c10scores) < 7 := by
  have hsucc : successful c10scores = c10scores := by
    rw [successful, List.filter_eq_self]
    intro a ha
    simp only [c10scores, List.mem_append, List.mem_replicate, List.mem_singleton] at ha
    rcases ha with (⟨-, rfl⟩ | ⟨-, rfl⟩) | rfl <;> norm_num [mkScore]
  have he : avgEnergyOf (successful c10scores) = 174 / 25 := by
    rw [hsucc]
    norm_num [avgEnergyOf, c10scores, mkScore]
  have hc : avgCrowdOf (successful c10scores) = 36 / 5 := by
    rw [hsucc]
    norm_num [avgCrowdOf, c10scores, mkScore]
  have hne : successful c10scores ≠ [] := by
    rw [hsucc]
    simp [c10scores]
  rw [aggregate_vibes_of_ne_nil hne, he, hc]
  refine ⟨?_, ?_, ?_, ?_⟩
  · show pyRound1 (174 / 25) = 7
    rw [pyRound1]
    norm_num
  · show (7 : ℚ) ≤ pyRound1 (36 / 5)
    rw [pyRound1]
    norm_num
  · show statusOf (174 / 25) (36 / 5) = "warming_up"
    rw [statusOf]
    norm_num
  · norm_num

/-! ### Stability of the tag sort

The implementation sorts by count only, relying on the stability of the
sort for the first-seen tie-break; the lemmas below discharge that. -/

/-- Ordered insertion only compares the inserted element with list
members, so two relations agreeing there insert identically. -/
theorem orderedInsert_rel_congr {α : Type} (r r' : α → α → Prop)
    [DecidableRel r] [DecidableRel r'] (x : α) :
    ∀ s : List α, (∀ b ∈ s, (r x b ↔ r' x b)) →
      List.orderedInsert r x s = List.orderedInsert r' x s
  | [], _ => rfl
  | b :: s, h => by
      simp only [List.orderedInsert]
      by_cases hb : r x b
      · rw [if_pos hb, if_pos ((h b (List.mem_cons_self b s)).mp hb)]
      · rw [if_neg hb, if_neg (fun hx => hb ((h b (List.mem_cons_self b s)).mpr hx)),
          orderedInsert_rel_congr r r' x s (fun c hc => h c (List.mem_cons_of_mem b hc))]

/-- Insertion sort compares only pairs in original order, so two
relations agreeing pairwise sort identically. -/
theorem insertionSort_rel_congr {α : Type} (r r' : α → α → Prop)
    [DecidableRel r] [DecidableRel r'] :
    ∀ l : List α, List.Pairwise (fun a b => r a b ↔ r' a b) l →
      List.insertionSort r l = List.insertionSort r' l
  | [], _ => rfl
  | x :: l, h => by
      have h1 := (List.pairwise_cons.mp h).1
      have h2 := (List.pairwise_cons.mp h).2
      simp only [List.insertionSort]
      rw [insertionSort_rel_congr r r' l h2]
      exact orderedInsert_rel_congr r r' x _ (fun b hb =>
        h1 b ((List.perm_insertionSort r' l).mem_iff.mp hb))

/-- Membership in the first-seen deduplication. -/
theorem mem_firstKept {s : String} : ∀ {ts : List String}, s ∈ firstKept ts ↔ s ∈ ts
  | [] => Iff.rfl
  | t :: ts => by
      simp only [firstKept, List.mem_cons, List.mem_filter,
        @mem_firstKept s ts, ne_eq, decide_not, Bool.not_eq_eq_eq_not,
        Bool.not_true, decide_eq_false_iff_not]
      by_cases hst : s = t
      · simp [hst]
      · simp [hst]

/-- A pairwise implication that may use membership of both elements. -/
theorem pairwise_imp_of_mem {α : Type} {R S : α → α → Prop} :
    ∀ {l : List α}, (∀ a ∈ l, ∀ b ∈ l, R a b → S a b) → List.Pairwise R l →
      List.Pairwise S l := by
  intro l
  induction l with
  | nil => exact fun _ _ => List.Pairwise.nil
  | cons x l ih =>
      intro h hp
      have h1 := List.pairwise_cons.mp hp
      refine List.pairwise_cons.mpr ⟨fun b hb =>
        h x (List.mem_cons_self x l) b (List.mem_cons_of_mem x hb) (h1.1 b hb), ?_⟩
      exact ih (fun a ha b hb =>
        h a (List.mem_cons_of_mem x ha) b (List.mem_cons_of_mem x hb)) h1.2

/-- The first-seen deduplication lists tags in strictly increasing
first-occurrence position. -/
theorem firstKept_pairwise_firstIdx : ∀ ts : List String,
    List.Pairwise (fun a b => firstIdx ts a < firstIdx ts b) (firstKept ts)
  | [] => List.Pairwise.nil
  | t :: ts => by
      rw [firstKept]
      refine List.Pairwise.cons ?_ ?_
      · intro b hb
        have hbne : b ≠ t := by
          have h2 := (List.mem_filter.mp hb).2
          simpa using h2
        have htb : ¬t = b := fun h => hbne h.symm
        have h0 : firstIdx (t :: ts) t = 0 := by simp [firstIdx]
        have h1 : firstIdx (t :: ts) b = firstIdx ts b + 1 := by simp [firstIdx, htb]
        omega
      · have hsub : List.Sublist ((firstKept ts).filter (fun s => decide (s ≠ t)))
            (firstKept ts) := List.filter_sublist _
        have hp := (firstKept_pairwise_firstIdx ts).sublist hsub
        refine pairwise_imp_of_mem ?_ hp
        intro a ha b hb hab
        have hane : a ≠ t := by
          have h2 := (List.mem_filter.mp ha).2
          simpa using h2
        have hbne : b ≠ t := by
          have h2 := (List.mem_filter.mp hb).2
          simpa using h2
        have hta : ¬t = a := fun h => hane h.symm
        have htb : ¬t = b := fun h => hbne h.symm
        have h1 : firstIdx (t :: ts) a = firstIdx ts a + 1 := by simp [firstIdx, hta]
        have h2 : firstIdx (t :: ts) b = firstIdx ts b + 1 := by simp [firstIdx, htb]
        omega

/-- The per-score double fold of the tally is the fold over the
flattened tag sequence. -/
theorem foldl_bumpTag_flatten : ∀ (succ : List VibeScore) (acc : List (String × ℕ)),
    succ.foldl (fun acc a => a.vibe_tags.foldl bumpTag acc) acc
      = (succ.flatMap (fun a => a.vibe_tags)).foldl bumpTag acc
  | [], _ => rfl
  | a :: succ, acc => by
      rw [List.foldl_cons, foldl_bumpTag_flatten succ, List.flatMap_cons, List.foldl_append]

/-- The tag tally of the aggregator equals the flattened tally. -/
theorem tallyTags_eq_tallyList (succ : List VibeScore) :
    tallyTags succ = tallyList (allTags succ) :=
  foldl_bumpTag_flatten succ []

/-- Tally of one more tag. -/
theorem tallyList_concat (ts : List String) (t : String) :
    tallyList (ts ++ [t]) = bumpTag (tallyList ts) t := by
  rw [tallyList, List.foldl_append, List.foldl_cons, List.foldl_nil, tallyList]

/-- First-seen deduplication of one more tag. -/
theorem firstKept_append_singleton (t : String) : ∀ ts : List String,
    firstKept (ts ++ [t]) = if t ∈ ts then firstKept ts else firstKept ts ++ [t]
  | [] => by simp [firstKept]
  | s :: ts => by
      rw [List.cons_append, firstKept, firstKept_append_singleton t ts, firstKept]
      by_cases hts : t ∈ ts
      · rw [if_pos hts, if_pos (List.mem_cons_of_mem s hts)]
      · by_cases hst : t = s
        · subst hst
          rw [if_neg hts, if_pos (List.mem_cons_self t ts), List.filter_append]
          simp
        · have hmem : t ∉ s :: ts := by simp [List.mem_cons, hst, hts]
          rw [if_neg hts, if_neg hmem, List.filter_append]
          simp [List.filter_cons, hst]

/-- The tally is the first-seen key list paired with occurrence
counts. -/
theorem tallyList_eq_map : ∀ ts : List String,
    tallyList ts = (firstKept ts).map (fun t => (t, ts.count t)) := by
  intro ts
  induction ts using List.reverseRecOn with
  | nil => rfl
  | append_singleton ts t ih =>
      rw [tallyList_concat, ih, firstKept_append_singleton, bumpTag]
      by_cases hts : t ∈ ts
      · have hcond : (((firstKept ts).map (fun x => (x, ts.count x))).any
            (fun p => decide (p.1 = t))) = true := by
          rw [List.any_eq_true]
          exact ⟨(t, ts.count t), List.mem_map_of_mem _ (mem_firstKept.mpr hts), by simp⟩
        rw [if_pos hcond, if_pos hts, List.map_map]
        refine List.map_congr_left (fun x hx => ?_)
        show (if x = t then (x, ts.count x + 1) else (x, ts.count x))
          = (x, (ts ++ [t]).count x)
        by_cases hxt : x = t
        · subst hxt
          rw [if_pos rfl]
          simp [List.count_append, List.count_singleton]
        · rw [if_neg hxt]
          have htx : (t == x) = false := by
            simpa using Ne.symm hxt
          simp [List.count_append, List.count_singleton, htx]
      · have hcond : (((firstKept ts).map (fun x => (x, ts.count x))).any
            (fun p => decide (p.1 = t))) = false := by
          rw [List.any_eq_false]
          intro p hp
          rcases List.mem_map.mp hp with ⟨y, hy, rfl⟩
          simp only [decide_eq_true_eq]
          exact fun h => hts (h ▸ mem_firstKept.mp hy)
        rw [if_neg (by simp [hcond]), if_neg hts, List.map_append]
        congr 1
        · refine List.map_congr_left (fun x hx => ?_)
          have hxt : x ≠ t := fun h => hts (h ▸ mem_firstKept.mp hx)
          have htx : (t == x) = false := by
            simpa using Ne.symm hxt
          simp [List.count_append, List.count_singleton, htx]
        · simp [List.count_append, List.count_singleton, List.count_eq_zero.mpr hts]

/-- The count lookup on a cons cell. -/
theorem countIn_cons (p : String × ℕ) (tc : List (String × ℕ)) (t : String) :
    countIn (p :: tc) t = if p.1 = t then p.2 else countIn tc t := by
  by_cases h : p.1 = t
  · rw [countIn, List.find?_cons_of_pos _ (by simpa using h), if_pos h]
    rfl
  · rw [countIn, List.find?_cons_of_neg _ (by simpa using h), if_neg h]
    rfl

/-- The count lookup over a key-count map. -/
theorem countIn_map (g : String → ℕ) : ∀ (F : List String) (t : String),
    countIn (F.map (fun x => (x, g x))) t = if t ∈ F then g t else 0
  | [], t => rfl
  | s :: F, t => by
      rw [List.map_cons, countIn_cons, countIn_map g F t]
      by_cases hst : s = t
      · subst hst
        simp
      · have hts : ¬t = s := fun h => hst h.symm
        simp [List.mem_cons, hst, hts]

/-- The count lookup of the sort key equals the occurrence count. -/
theorem countIn_tallyList (ts : List String) (t : String) :
    countIn (tallyList ts) t = ts.count t := by
  rw [tallyList_eq_map, countIn_map]
  by_cases hts : t ∈ ts
  · rw [if_pos (mem_firstKept.mpr hts)]
  · rw [if_neg (fun h => hts (mem_firstKept.mp h))]
    exact (List.count_eq_zero.mpr hts).symm

/-- The implementation top-tag computation equals the spec-side one:
sort the first-seen key list by descending count with first-seen
tie-break and keep the first four. -/
theorem topTagsOf_eq_spec (succ : List VibeScore) :
    topTagsOf succ =
      (List.insertionSort (specTagLE (allTags succ)) (firstKept (allTags succ))).take 4 := by
  have hcount : ∀ x, countIn (tallyTags succ) x = (allTags succ).count x := fun x => by
    rw [tallyTags_eq_tallyList, countIn_tallyList]
  have hkeys : (tallyTags succ).map Prod.fst = firstKept (allTags succ) := by
    rw [tallyTags_eq_tallyList, tallyList_eq_map, List.map_map,
      show (Prod.fst ∘ fun t => ((t, (allTags succ).count t) : String × ℕ)) = id from rfl,
      List.map_id]
  simp only [topTagsOf]
  rw [hkeys]
  congr 1
  refine insertionSort_rel_congr _ _ _
    (List.Pairwise.imp ?_ (firstKept_pairwise_firstIdx (allTags succ)))
  intro a b hab
  rw [hcount, hcount]
  unfold specTagLE
  constructor
  · intro hle
    omega
  · intro hor
    omega

/-- Claim C6: the aggregated top vibe tags are the at most four
highest-frequency tags of the contributing scores, frequency ties
broken by first-seen order, defaulting to Unknown when no tags exist;
and the concrete tag lists Techno-Dark, Techno-Hype, Dark yield exactly
Techno, Dark, Hype. -/
theorem claim6_top_tags (l : List VibeScore) :
    (aggregate_vibes l).top_vibe_tags = specTopVibeTags (successful l) ∧
    (aggregate_vibes [mkScore 8 8 ["Techno", "Dark"] 1 true,
        mkScore 8 8 ["Techno", "Hype"] 1 true,
        mkScore 8 8 ["Dark"] 1 true]).top_vibe_tags = ["Techno", "Dark", "Hype"] := by
  have hgen : ∀ m : List VibeScore, (aggregate_vibes m).top_vibe_tags
      = specTopVibeTags (successful m) := by
    intro m
    by_cases h : successful m = []
    · rw [aggregate_vibes, h]
      rfl
    · rw [aggregate_vibes_of_ne_nil h]
      show (if (topTagsOf (successful m)).isEmpty then ["Unknown"]
        else topTagsOf (successful m)) = _
      simp only [specTopVibeTags]
      rw [topTagsOf_eq_spec]
      by_cases ht : (List.insertionSort (specTagLE (allTags (successful m)))
          (firstKept (allTags (successful m)))).take 4 = []
      · simp [ht]
      · simp [ht, List.isEmpty_eq_false.mpr ht]
  refine ⟨hgen l, ?_⟩
  have hne : successful [mkScore 8 8 ["Techno", "Dark"] 1 true,
      mkScore 8 8 ["Techno", "Hype"] 1 true, mkScore 8 8 ["Dark"] 1 true] ≠ [] := by
    simp [successful, mkScore] <;> norm_num
  rw [aggregate_vibes_of_ne_nil hne]
  have hsucc : successful [mkScore 8 8 ["Techno", "Dark"] 1 true,
      mkScore 8 8 ["Techno", "Hype"] 1 true, mkScore 8 8 ["Dark"] 1 true]
      = [mkScore 8 8 ["Techno", "Dark"] 1 true,
        mkScore 8 8 ["Techno", "Hype"] 1 true, mkScore 8 8 ["Dark"] 1 true] := by
    rw [successful, List.filter_eq_self]
    intro a ha
    rcases List.mem_cons.mp ha with rfl | ha2
    · norm_num [mkScore]
    · rcases List.mem_cons.mp ha2 with rfl | ha3
      · norm_num [mkScore]
      · rcases List.mem_cons.mp ha3 with rfl | ha4
        · norm_num [mkScore]
        · exact absurd ha4 (List.not_mem_nil a)
  show (if (topTagsOf _).isEmpty then ["Unknown"] else topTagsOf _) = _
  rw [hsucc]
  decide

/-! ### Analyzer lemmas -/

/-- A successful slice is at most four elements or characters long. -/
theorem pySlice4_ok_len {v t : JsonVal} (h : pySlice4 v = .ok t) :
    ∃ n, pyLen t = some n ∧ n ≤ 4 := by
  cases v with
  | jarr xs =>
      cases h
      exact ⟨(xs.take 4).length, rfl, by
        rw [List.length_take]
        exact Nat.min_le_left _ _⟩
  | jstr s =>
      cases h
      exact ⟨(s.toList.take 4).length, rfl, by
        rw [List.length_take]
        exact Nat.min_le_left _ _⟩
  | jnum q => exact absurd h (by simp [pySlice4])
  | jbool b => exact absurd h (by simp [pySlice4])
  | jnull => exact absurd h (by simp [pySlice4])

/-- Every successfully built analysis is clamped into range, with at
most four tags, and carries success. -/
theorem buildAnalysis_ok_shape {fields : List (String × JsonVal)} {url : String}
    {a : VibeAnalysis} (h : buildAnalysis fields url = .ok a) :
    (1 ≤ a.energy_level ∧ a.energy_level ≤ 10 ∧
      1 ≤ a.crowd_level ∧ a.crowd_level ≤ 10 ∧
      0 ≤ a.confidence ∧ a.confidence ≤ 1 ∧
      (∃ n, pyLen a.vibe_tags = some n ∧ n ≤ 4)) ∧ a.success = true := by
  rw [buildAnalysis] at h
  split at h
  · exact absurd h (by simp)
  · split at h
    · exact absurd h (by simp)
    · split at h
      · exact absurd h (by simp)
      · rename_i tags htags
        split at h
        · exact absurd h (by simp)
        · cases h
          refine ⟨⟨le_max_left 1 _, max_le (by norm_num) (min_le_left 10 _),
            le_max_left 1 _, max_le (by norm_num) (min_le_left 10 _),
            le_max_left 0 _, max_le zero_le_one (min_le_left 1 _),
            pySlice4_ok_len htags⟩, rfl⟩

/-- Every ok value of the parse either came from the field builder or
is the degraded parse record. -/
theorem parse_response_ok_cases {r : PyReply} {url : String} {a : VibeAnalysis}
    (h : parse_response r url = .ok a) :
    (∃ fields, buildAnalysis fields url = .ok a) ∨ ∃ e, a = parseDegraded url e := by
  cases r with
  | malformed m =>
      cases h
      exact Or.inr ⟨_, rfl⟩
  | nonObject v => exact absurd h (by simp [parse_response])
  | object fields =>
      rw [parse_response] at h
      split at h
      · cases h
        exact Or.inl ⟨fields, by assumption⟩
      · split at h
        · cases h
          exact Or.inr ⟨_, rfl⟩
        · exact absurd h (by simp)

/-- The shared shape of the three degraded records. -/
theorem fixedDegraded_bounds (a : VibeAnalysis)
    (he : a.energy_level = 5) (hc : a.crowd_level = 5) (hf : a.confidence = 0)
    (ht : a.vibe_tags = .jarr [.jstr "Unknown"]) :
    1 ≤ a.energy_level ∧ a.energy_level ≤ 10 ∧
    1 ≤ a.crowd_level ∧ a.crowd_level ≤ 10 ∧
    0 ≤ a.confidence ∧ a.confidence ≤ 1 ∧
    ∃ n, pyLen a.vibe_tags = some n ∧ n ≤ 4 := by
  rw [he, hc, hf, ht]
  exact ⟨by norm_num, by norm_num, by norm_num, by norm_num, le_refl 0, zero_le_one,
    1, rfl, by norm_num⟩

/-- Claim C2: for every image URL and every classifier outcome, the
returned score has energy and crowd in one to ten, confidence in zero
to one, and at most four tags — clamped on the success path, fixed and
in range on every failure path. -/
theorem claim2_score_invariants (url : String) (env : AnalyzeEnv) :
    1 ≤ (analyze_image url env).energy_level ∧
    (analyze_image url env).energy_level ≤ 10 ∧
    1 ≤ (analyze_image url env).crowd_level ∧
    (analyze_image url env).crowd_level ≤ 10 ∧
    0 ≤ (analyze_image url env).confidence ∧
    (analyze_image url env).confidence ≤ 1 ∧
    ∃ n, pyLen (analyze_image url env).vibe_tags = some n ∧ n ≤ 4 := by
  cases env with
  | raiseHttp m => exact fixedDegraded_bounds _ rfl rfl rfl rfl
  | raiseOther m => exact fixedDegraded_bounds _ rfl rfl rfl rfl
  | reply r =>
      have hai : analyze_image url (.reply r) = (match parse_response r url with
        | .ok a => a
        | .error e => genericDegraded url e.msg) := rfl
      cases hp : parse_response r url with
      | error e =>
          rw [hai, hp]
          exact fixedDegraded_bounds _ rfl rfl rfl rfl
      | ok a =>
          rw [hai, hp]
          rcases parse_response_ok_cases hp with ⟨fields, hb⟩ | ⟨e, rfl⟩
          · exact (buildAnalysis_ok_shape hb).1
          · exact fixedDegraded_bounds _ rfl rfl rfl rfl

/-- Specialization of the ok cases to an object reply, keeping the
field list. -/
theorem parse_response_object_ok {fields : List (String × JsonVal)} {url : String}
    {a : VibeAnalysis} (h : parse_response (.object fields) url = .ok a) :
    buildAnalysis fields url = .ok a ∨ ∃ e, a = parseDegraded url e := by
  rw [parse_response] at h
  split at h
  · cases h
    exact Or.inl (by assumption)
  · split at h
    · cases h
      exact Or.inr ⟨_, rfl⟩
    · exact absurd h (by simp)

/-- Claim C3 counterexample: an unexpected exception carrying the empty
message yields a failure record whose error description is the empty
string, so the error description is not always non-empty. -/
theorem claim3_counterexample :
    (analyze_image "u" (.raiseOther "")).success = false ∧
    (analyze_image "u" (.raiseOther "")).error = some "" ∧
    ("" : String).length = 0 :=
  ⟨rfl, rfl, rfl⟩

/-- Claim C3 as amended: analyze image is a total function of the
environment outcome, every result with success false carries energy 5,
crowd 5, tags Unknown, confidence 0 and a set (possibly empty) error
description, and fetch failures, unexpected failures and malformed
replies all produce such failure results, the first two with their
documented error formats. -/
theorem claim3_failure_degraded (url : String) :
    (∀ env : AnalyzeEnv, (analyze_image url env).success = false →
      (analyze_image url env).energy_level = 5 ∧
      (analyze_image url env).crowd_level = 5 ∧
      (analyze_image url env).vibe_tags = .jarr [.jstr "Unknown"] ∧
      (analyze_image url env).confidence = 0 ∧
      ∃ m, (analyze_image url env).error = some m) ∧
    (∀ m, (analyze_image url (.raiseHttp m)).success = false ∧
      (analyze_image url (.raiseHttp m)).error = some ("HTTP error: " ++ m)) ∧
    (∀ m, (analyze_image url (.raiseOther m)).success = false ∧
      (analyze_image url (.raiseOther m)).error = some m) ∧
    (∀ m, (analyze_image url (.reply (.malformed m))).success = false ∧
      (analyze_image url (.reply (.malformed m))).error = some ("Parse error: " ++ m)) := by
  refine ⟨?_, fun m => ⟨rfl, rfl⟩, fun m => ⟨rfl, rfl⟩, fun m => ⟨rfl, rfl⟩⟩
  intro env hs
  cases env with
  | raiseHttp m => exact ⟨rfl, rfl, rfl, rfl, _, rfl⟩
  | raiseOther m => exact ⟨rfl, rfl, rfl, rfl, _, rfl⟩
  | reply r =>
      have hai : analyze_image url (.reply r) = (match parse_response r url with
        | .ok a => a
        | .error e => genericDegraded url e.msg) := rfl
      cases hp : parse_response r url with
      | error e =>
          rw [hai, hp]
          exact ⟨rfl, rfl, rfl, rfl, _, rfl⟩
      | ok a =>
          rw [hai, hp] at hs ⊢
          rcases parse_response_ok_cases hp with ⟨fields, hb⟩ | ⟨e, rfl⟩
          · have hs' : a.success = false := hs
            rw [(buildAnalysis_ok_shape hb).2] at hs'
            simp at hs'
          · exact ⟨rfl, rfl, rfl, rfl, _, rfl⟩

/-- Witness for C3 at a concrete fetch failure. -/
theorem claim3_witness :
    (analyze_image "u" (.raiseHttp "boom")).success = false ∧
    (analyze_image "u" (.raiseHttp "boom")).energy_level = 5 ∧
    (analyze_image "u" (.raiseHttp "boom")).crowd_level = 5 ∧
    (analyze_image "u" (.raiseHttp "boom")).vibe_tags = .jarr [.jstr "Unknown"] ∧
    (analyze_image "u" (.raiseHttp "boom")).confidence = 0 ∧
    ∃ m, (analyze_image "u" (.raiseHttp "boom")).error = some m := by
  have h := claim3_failure_degraded "u"
  have hd := h.1 (.raiseHttp "boom") rfl
  exact ⟨(h.2.1 "boom").1, hd.1, hd.2.1, hd.2.2.1, hd.2.2.2.1, hd.2.2.2.2⟩

/-- Claim C8 counterexample: the empty JSON object has every field
missing yet parses successfully with the documented defaults rather
than the degraded failure record; and a wrong-typed numeric string
field is handled by the generic handler with description Analysis
failed, not by the parse handler. -/
theorem claim8_counterexample :
    (parse_response (.object []) "u"
      = .ok { image_url := "u", energy_level := 5, crowd_level := 5,
              vibe_tags := .jarr [], description := .jstr "Unable to analyze",
              confidence := 1 / 2, success := true, error := none }) ∧
    (analyze_image "u" (.reply (.object [("energy_level", .jstr "high")]))).description
      = .jstr "Analysis failed" ∧
    (analyze_image "u" (.reply (.object [("energy_level", .jstr "high")]))).success
      = false := by
  refine ⟨?_, rfl, rfl⟩
  have h1 : pyInt (pyGet [] "energy_level" (.jnum 5)) = .ok 5 := by
    show Except.ok (truncRat 5) = .ok 5
    rw [truncRat]
    norm_num
  have h2 : pyInt (pyGet [] "crowd_level" (.jnum 5)) = .ok 5 := h1
  have h3 : pySlice4 (pyGet [] "vibe_tags" (.jarr [])) = .ok (.jarr []) := rfl
  have h4 : pyFloat (pyGet [] "confidence" (.jnum (1 / 2))) = .ok (1 / 2) := rfl
  have hb : buildAnalysis [] "u"
      = .ok { image_url := "u", energy_level := 5, crowd_level := 5,
              vibe_tags := .jarr [], description := .jstr "Unable to analyze",
              confidence := 1 / 2, success := true, error := none } := by
    simp only [buildAnalysis, h1, h2, h3, h4]
    simp only [min_eq_right (by norm_num : (5 : ℤ) ≤ 10),
      max_eq_right (by norm_num : (1 : ℤ) ≤ 5),
      min_eq_right (by norm_num : (1 : ℚ) / 2 ≤ 1),
      max_eq_right (by norm_num : (0 : ℚ) ≤ 1 / 2)]
    rfl
  rw [parse_response, hb]

/-- Claim C8 as amended: malformed JSON syntax yields the degraded
parse-failure record with an error naming the decode failure; a
wrong-typed field whose conversion raises TypeError yields the same
degraded record; but a missing field is defaulted, the fully-empty
object parsing successfully with energy 5, crowd 5, no tags,
description Unable to analyze and confidence one half, and any ok
result of a reply missing its energy field has energy 5; and a numeric
field holding a non-numeric string raises ValueError, which the generic
handler turns into the Analysis failed record instead. -/
theorem claim8_parse_taxonomy (url : String) :
    (∀ m, parse_response (.malformed m) url
      = .ok (parseDegraded url ("Parse error: " ++ m))) ∧
    (∀ fields m, buildAnalysis fields url = .error (.typeError m) →
      parse_response (.object fields) url
        = .ok (parseDegraded url ("Parse error: " ++ m))) ∧
    (∀ fields a, pyLookup fields "energy_level" = none →
      parse_response (.object fields) url = .ok a → a.energy_level = 5) ∧
    (∀ fields m, buildAnalysis fields url = .error (.valueError m) →
      analyze_image url (.reply (.object fields)) = genericDegraded url m) := by
  refine ⟨fun m => rfl, ?_, ?_, ?_⟩
  · intro fields m hb
    rw [parse_response, hb]
    rfl
  · intro fields a hnone hp
    rcases parse_response_object_ok hp with hb | ⟨e, rfl⟩
    · have he : pyInt (pyGet fields "energy_level" (.jnum 5)) = .ok 5 := by
        rw [pyGet, hnone]
        show Except.ok (truncRat 5) = .ok 5
        rw [truncRat]
        norm_num
      rw [buildAnalysis, he] at hb
      cases hc : pyInt (pyGet fields "crowd_level" (.jnum 5)) with
      | error ex =>
          rw [hc] at hb
          exact absurd (show (Except.error ex : Except PyExc VibeAnalysis) = .ok a from hb)
            (by simp)
      | ok c =>
          rw [hc] at hb
          cases ht : pySlice4 (pyGet fields "vibe_tags" (.jarr [])) with
          | error ex =>
              rw [ht] at hb
              exact absurd
                (show (Except.error ex : Except PyExc VibeAnalysis) = .ok a from hb) (by simp)
          | ok tags =>
              rw [ht] at hb
              cases hf : pyFloat (pyGet fields "confidence" (.jnum (1 / 2))) with
              | error ex =>
                  rw [hf] at hb
                  exact absurd
                    (show (Except.error ex : Except PyExc VibeAnalysis) = .ok a from hb)
                    (by simp)
              | ok conf =>
                  rw [hf] at hb
                  have hb2 :
                      ({ image_url := url, energy_level := max 1 (min 10 5),
                         crowd_level := max 1 (min 10 c), vibe_tags := tags,
                         description := pyGet fields "description" (.jstr "Unable to analyze"),
                         confidence := max 0 (min 1 conf), success := true,
                         error := none } : VibeAnalysis) = a :=
                    Except.ok.inj hb
                  rw [← hb2]
                  show max 1 (min 10 5) = 5
                  rw [min_eq_right (by norm_num : (5 : ℤ) ≤ 10),
                    max_eq_right (by norm_num : (1 : ℤ) ≤ 5)]
    · rfl
  · intro fields m hb
    have hp : parse_response (.object fields) url = .error (.valueError m) := by
      rw [parse_response, hb]
      rfl
    show (match parse_response (.object fields) url with
      | .ok a => a
      | .error e => genericDegraded url e.msg) = genericDegraded url m
    rw [hp]
    rfl

/-- Witness for C8 at a null-typed and a string-typed energy field. -/
theorem claim8_witness :
    parse_response (.object [("energy_level", JsonVal.jnull)]) "u"
      = .ok (parseDegraded "u"
          ("Parse error: " ++ "int argument must be a string or a number, not NoneType")) ∧
    analyze_image "u" (.reply (.object [("energy_level", .jstr "high")]))
      = genericDegraded "u" ("invalid literal for int with base 10: " ++ "high") := by
  refine ⟨(claim8_parse_taxonomy "u").2.1 _ _ ?_, (claim8_parse_taxonomy "u").2.2.2 _ _ ?_⟩
  · rfl
  · rfl

/-! ### Extraction loop lemmas -/

/-- One step of the extraction loop: seen only grows, and an emitted
item carries a fresh shortcode that is recorded in seen and read from
this link. -/
theorem processLink_spec (seen : List String) (l : CandLink) :
    (∀ s ∈ seen, s ∈ (processLink seen l).1) ∧
    (∀ it, (processLink seen l).2 = some it →
      it.shortcode ∉ seen ∧ it.shortcode ∈ (processLink seen l).1 ∧
      candidateShortcode l = some it.shortcode) := by
  cases hc : candidateShortcode l with
  | none =>
      simp only [processLink, hc]
      exact ⟨fun s hs => hs, fun it h => by simp at h⟩
  | some sc =>
      simp only [processLink, hc]
      by_cases hmem : sc ∈ seen
      · rw [if_pos hmem]
        exact ⟨fun s hs => hs, fun it h => by simp at h⟩
      · rw [if_neg hmem]
        by_cases h2 : l.failAt = some .atImg
        · rw [if_pos h2]
          exact ⟨fun s hs => List.mem_cons_of_mem _ hs, fun it h => by simp at h⟩
        · rw [if_neg h2]
          by_cases h3 : l.failAt = some .atVideo
          · rw [if_pos h3]
            exact ⟨fun s hs => List.mem_cons_of_mem _ hs, fun it h => by simp at h⟩
          · rw [if_neg h3]
            refine ⟨fun s hs => List.mem_cons_of_mem _ hs, fun it h => ?_⟩
            have hit := Option.some.inj h
            have hsc : it.shortcode = sc := by rw [← hit]
            rw [hsc]
            exact ⟨hmem, List.mem_cons_self _ _, rfl⟩

/-- The loop never grows past the item cap. -/
theorem extractLoop_length (m : ℕ) : ∀ (ls : List CandLink) (seen : List String)
    (acc : List MediaItem), acc.length ≤ m → (extractLoop m ls seen acc).length ≤ m
  | [], _, _, h => h
  | l :: ls, seen, acc, h => by
      simp only [extractLoop]
      by_cases hlen : m ≤ acc.length
      · rw [if_pos hlen]
        exact h
      · rw [if_neg hlen]
        refine extractLoop_length m ls _ _ ?_
        rw [List.length_append]
        have ht : (processLink seen l).2.toList.length ≤ 1 := by
          cases (processLink seen l).2 <;> simp
        omega

/-- Every accumulated shortcode is recorded in seen, so the emitted
shortcodes stay pairwise distinct. -/
theorem extractLoop_nodup (m : ℕ) : ∀ (ls : List CandLink) (seen : List String)
    (acc : List MediaItem), (∀ it ∈ acc, it.shortcode ∈ seen) →
    (acc.map (fun i => i.shortcode)).Nodup →
    ((extractLoop m ls seen acc).map (fun i => i.shortcode)).Nodup
  | [], _, _, _, hnd => hnd
  | l :: ls, seen, acc, hmem, hnd => by
      simp only [extractLoop]
      by_cases hlen : m ≤ acc.length
      · rw [if_pos hlen]
        exact hnd
      · rw [if_neg hlen]
        have hspec := processLink_spec seen l
        refine extractLoop_nodup m ls _ _ ?_ ?_
        · intro it hit
          rcases List.mem_append.mp hit with hin | hin
          · exact hspec.1 _ (hmem it hin)
          · cases hit2 : (processLink seen l).2 with
            | none =>
                rw [hit2] at hin
                simp at hin
            | some it' =>
                rw [hit2] at hin
                simp at hin
                cases hin
                exact (hspec.2 _ hit2).2.1
        · cases hit2 : (processLink seen l).2 with
          | none =>
              simpa using hnd
          | some it' =>
              rw [show (some it').toList = [it'] from rfl, List.map_append]
              refine List.Nodup.append hnd (List.nodup_singleton _) ?_
              intro s hs1 hs2
              simp only [List.map_cons, List.map_nil, List.mem_singleton] at hs2
              subst hs2
              rcases List.mem_map.mp hs1 with ⟨a, ha, heq⟩
              exact (hspec.2 it' hit2).1 (heq ▸ hmem a ha)

/-- The emitted shortcodes appear in page order: they form a sublist of
the candidate shortcodes of the scanned links. -/
theorem extractLoop_sublist (m : ℕ) : ∀ (ls : List CandLink) (seen : List String)
    (acc : List MediaItem),
    List.Sublist ((extractLoop m ls seen acc).map (fun i => i.shortcode))
      (acc.map (fun i => i.shortcode) ++ ls.filterMap candidateShortcode)
  | [], _, acc => by simp [extractLoop]
  | l :: ls, seen, acc => by
      simp only [extractLoop]
      by_cases hlen : m ≤ acc.length
      · rw [if_pos hlen]
        exact List.sublist_append_left _ _
      · rw [if_neg hlen]
        refine (extractLoop_sublist m ls (processLink seen l).1
          (acc ++ (processLink seen l).2.toList)).trans ?_
        rw [List.map_append]
        cases hit2 : (processLink seen l).2 with
        | none =>
            rw [show (none : Option MediaItem).toList = [] from rfl, List.map_nil,
              List.append_nil, List.filterMap_cons]
            refine List.Sublist.append_left ?_ _
            cases candidateShortcode l with
            | none => exact List.Sublist.refl _
            | some sc => exact List.sublist_cons_self _ _
        | some it' =>
            have hcand := (processLink_spec seen l).2 it' hit2
            rw [show (some it').toList = [it'] from rfl, List.filterMap_cons, hcand.2.2,
              List.append_assoc]
            exact List.Sublist.refl _

/-- Claim C7: extraction scans at most twice the item cap of candidate
links, skips shortcodes already seen so the returned shortcodes are
pairwise distinct, preserves page order, and returns at most the item
cap of items. -/
theorem claim7_extraction (post_links : List CandLink) (m : ℕ) :
    extract_media_from_page post_links m
      = extract_media_from_page (post_links.take (2 * m)) m ∧
    (extract_media_from_page post_links m).length ≤ m ∧
    ((extract_media_from_page post_links m).map (fun i => i.shortcode)).Nodup ∧
    List.Sublist ((extract_media_from_page post_links m).map (fun i => i.shortcode))
      ((post_links.take (2 * m)).filterMap candidateShortcode) := by
  refine ⟨?_, ?_, ?_, ?_⟩
  · simp only [extract_media_from_page, List.take_take, Nat.mul_comm m 2, Nat.min_self]
  · exact extractLoop_length m _ _ _ (by simp)
  · exact extractLoop_nodup m _ _ _ (by simp) (by simp)
  · have hmain := extractLoop_sublist m (post_links.take (m * 2)) [] []
    rw [Nat.mul_comm 2 m, extract_media_from_page]
    simpa using hmain

/-- A one-item scrape result used in the C9 statements. -/
def oneItemScrape (thumb : String) : ScrapeResult :=
  { location_url := "loc", location_name := some "Club"
    media_items := [{ url := "u", thumbnail_url := thumb, media_type := "image"
                      shortcode := "A", scraped_at := "t" }]
    scraped_at := "t", success := true, error := none }

/-- Claim C9 counterexample: a successful scrape with one media item
whose thumbnail is empty satisfies the claim antecedent (success and at
least one item), yet the batch never runs and the report carries no
summary. -/
theorem claim9_counterexample :
    (scout_location (oneItemScrape "") true (fun _ => mkScore 8 8 [] 1 true)).vibe_summary
      = none ∧
    (scout_location (oneItemScrape "") true (fun _ => mkScore 8 8 [] 1 true)).success
      = true ∧
    (oneItemScrape "").success = true ∧ (oneItemScrape "").media_items ≠ [] := by
  refine ⟨rfl, rfl, rfl, ?_⟩
  simp [oneItemScrape]

/-- Claim C9 as amended: when the scrape succeeds with at least one
media item carrying a non-empty thumbnail URL and analysis is enabled,
the orchestrator scores exactly the non-empty thumbnail URLs in order
and the report carries the aggregated summary of those scores. -/
theorem claim9_pipeline (sr : ScrapeResult) (scoreOf : String → VibeScore)
    (hs : sr.success = true) (hne : sr.media_items ≠ [])
    (hthumb : ∃ i ∈ sr.media_items, i.thumbnail_url ≠ "") :
    (scout_location sr true scoreOf).analyses
      = ((sr.media_items.filter (fun i => i.thumbnail_url ≠ "")).map
          (fun i => i.thumbnail_url)).map scoreOf ∧
    (scout_location sr true scoreOf).vibe_summary
      = some (aggregate_vibes
          (((sr.media_items.filter (fun i => i.thumbnail_url ≠ "")).map
            (fun i => i.thumbnail_url)).map scoreOf)) := by
  obtain ⟨lurl, lname, items, sat, succ, err⟩ := sr
  replace hs : succ = true := hs
  subst hs
  replace hne : items ≠ [] := hne
  replace hthumb : ∃ i ∈ items, i.thumbnail_url ≠ "" := hthumb
  cases items with
  | nil => exact absurd rfl hne
  | cons i is =>
      cases htl : ((i :: is).filter (fun x => x.thumbnail_url ≠ "")).map
          (fun x => x.thumbnail_url) with
      | nil =>
          exfalso
          rcases hthumb with ⟨j, hj, hjt⟩
          have hfe : (i :: is).filter (fun x => x.thumbnail_url ≠ "") = [] :=
            List.map_eq_nil_iff.mp htl
          have hmem : j ∈ (i :: is).filter (fun x => x.thumbnail_url ≠ "") :=
            List.mem_filter.mpr ⟨hj, by simpa using hjt⟩
          rw [hfe] at hmem
          exact absurd hmem (List.not_mem_nil j)
      | cons t ts =>
          simp only [scout_location]
          rw [htl]
          exact ⟨rfl, rfl⟩

/-- Witness for C9 at a one-item scrape with a usable thumbnail. -/
theorem claim9_witness :
    (scout_location (oneItemScrape "t1") true (fun _ => mkScore 8 8 [] 1 true)).analyses
      = [mkScore 8 8 [] 1 true] ∧
    (scout_location (oneItemScrape "t1") true (fun _ => mkScore 8 8 [] 1 true)).vibe_summary
      = some (aggregate_vibes [mkScore 8 8 [] 1 true]) := by
  have h := claim9_pipeline (oneItemScrape "t1") (fun _ => mkScore 8 8 [] 1 true)
    rfl (by simp [oneItemScrape])
    ⟨{ url := "u", thumbnail_url := "t1", media_type := "image"
       shortcode := "A", scraped_at := "t" }, by simp [oneItemScrape], by simp⟩
  exact ⟨h.1, h.2⟩

end ScoutEngine
